import Mathlib

/-!
Shallow embedding of the `ping-check` monitor (src/go/main.go) and proofs
of the specification claims about it.

Modelling conventions:
* Go `float64` latencies and rates are modelled as `ℚ`.
* A Go `time.Time` is modelled by its calendar date (an abstract natural
  number standing for the `"2006-01-02"` string) together with the
  time-of-day components used by the `"15:04:05"` format.
* Rendered Discord field strings are modelled as lists of UTF-8 bytes
  (`List ℕ`), since Go's `len` and slicing on `string` are byte-based.
* The ambient effects of the program (console printing, the single HTTP
  POST of `sendToDiscord`) are modelled by an explicit `Effect` list; the
  HTTP response the environment would give is passed in as a parameter.
* `runtime.GOOS` is taken to be `"linux"` throughout (the non-Windows
  branches of the source).
-/

namespace PingCheck

/-- A Go `time.Time`, reduced to the components the program observes:
the calendar date (`Format "2006-01-02"`, abstracted to `ℕ`) and the
time-of-day fields (`Format "15:04:05"`). -/
structure GoTime where
  day : ℕ
  hour : ℕ
  minute : ℕ
  second : ℕ
  deriving DecidableEq, Repr

/-- `PingResult` from the source: a single ping result. -/
structure PingResult where
  timestamp : GoTime
  responseTime : ℚ
  success : Bool
  deriving DecidableEq, Repr

/-- `Config` from the source. -/
structure Config where
  discordWebhookURL : String
  deriving DecidableEq, Repr

/-- The mutable fields of `PingMonitor` that the claims observe.
`stopChanClosed` models whether `close(pm.stopChan)` has already run
(closing a closed channel panics in Go). -/
structure PingMonitor where
  pingResults : List PingResult
  unreachableTimes : List GoTime
  running : Bool
  stopChanClosed : Bool
  config : Config
  defaultGateway : String
  localIP : String
  deriving DecidableEq, Repr

/-- `resetDailyData`: clears both sample sets. -/
def resetDailyData (pm : PingMonitor) : PingMonitor :=
  { pm with pingResults := [], unreachableTimes := [] }

/-! ## Statistics (the loop shared verbatim by `sendDailyReport` and
`printDailyReport`) -/

/-- The `sum += result.ResponseTime` accumulation of the stats loop. -/
def sumResp (a : ℚ) (l : List PingResult) : ℚ :=
  l.foldl (fun acc r => acc + r.responseTime) a

/-- The `if result.ResponseTime > maxTime` accumulation of the stats loop. -/
def maxResp (a : ℚ) (l : List PingResult) : ℚ :=
  l.foldl (fun m r => if r.responseTime > m then r.responseTime else m) a

/-- The `if result.ResponseTime < minTime` accumulation of the stats loop. -/
def minResp (a : ℚ) (l : List PingResult) : ℚ :=
  l.foldl (fun m r => if r.responseTime < m then r.responseTime else m) a

/-- The statistics block computed identically in `sendDailyReport` and
`printDailyReport`: `(avgTime, maxTime, minTime)`.  When the result list
is empty the Go variables keep their zero values. -/
def loopStats (l : List PingResult) : ℚ × ℚ × ℚ :=
  match l with
  | [] => (0, 0, 0)
  | r0 :: _ => (sumResp 0 l / l.length, maxResp r0.responseTime l, minResp r0.responseTime l)

/-- `successRate` as computed in both report paths:
`float64(len(pingResults)) / float64(totalPings) * 100`, guarded to `0`
when `totalPings` is `0`. -/
def successRate (pm : PingMonitor) : ℚ :=
  let totalPings := pm.pingResults.length + pm.unreachableTimes.length
  if 0 < totalPings then (pm.pingResults.length : ℚ) / (totalPings : ℚ) * 100 else 0

/-! ## Byte-level string rendering

Go `len` and `s[:n]` on strings are byte-based, so rendered Discord field
values are modelled as lists of UTF-8 byte values. -/

/-- Decimal digit bytes of a natural number (ASCII), as `fmt.Sprintf "%d"`
produces them. -/
def natDigitBytes (n : ℕ) : List ℕ :=
  if h : n < 10 then [48 + n]
  else natDigitBytes (n / 10) ++ [48 + n % 10]
  decreasing_by exact Nat.div_lt_self (by omega) (by omega)

/-- The newline byte. -/
def nlB : ℕ := 10

/-- UTF-8 bytes of `"なし"` (the empty-list rendering). -/
def naShiBytes : List ℕ := [227, 129, 170, 227, 129, 151]

/-- `t.Format("15:04:05")` as 8 ASCII bytes. -/
def formatTimeBytes (t : GoTime) : List ℕ :=
  [48 + t.hour / 10 % 10, 48 + t.hour % 10, 58,
   48 + t.minute / 10 % 10, 48 + t.minute % 10, 58,
   48 + t.second / 10 % 10, 48 + t.second % 10]

/-- `strings.Join(periods, "\n")` on byte strings. -/
def joinNl : List (List ℕ) → List ℕ
  | [] => []
  | [x] => x
  | x :: y :: xs => x ++ nlB :: joinNl (y :: xs)

/-- The `fmt.Sprintf("\n... 他%d件", n)` overflow suffix: newline, three
dots, a space, `他` (3 bytes), the decimal digits of `n`, `件` (3 bytes). -/
def moreSuffix (n : ℕ) : List ℕ :=
  nlB :: ([46, 46, 46, 32] ++ [228, 187, 150] ++ natDigitBytes n ++ [228, 187, 182])

/-- `formatUnreachablePeriods`: at most 10 timestamp entries joined by
newlines, a `"... 他N件"` suffix when more than 10, and a final cap of
1024 bytes enforced by truncating to 1020 bytes plus `"..."`. -/
def formatUnreachablePeriods (unreachableTimes : List GoTime) : List ℕ :=
  if unreachableTimes = [] then naShiBytes
  else
    let periods := (unreachableTimes.take 10).map formatTimeBytes
    let result := joinNl periods
    let result :=
      if 10 < unreachableTimes.length then
        result ++ moreSuffix (unreachableTimes.length - 10)
      else result
    if 1024 < result.length then result.take 1020 ++ [46, 46, 46] else result

/-! ## Report renderings

The Discord embed's field values are kept structurally (the numbers that
`fmt.Sprintf` would interpolate), since the claims compare the numeric
content of the two renderings.  The embed's RFC3339 timestamp and the
constant footer text are display-only and not modelled. -/

/-- One entry of the embed's `Fields` list, with the numbers its
formatted `Value` string interpolates. -/
inductive EmbedFieldData where
  /-- `"📊 応答時間統計"`: average, max, min response time. -/
  | latencyStats (avg mx mn : ℚ)
  /-- `"📈 到達性統計"`: success rate, success count, failure count. -/
  | reachability (rate : ℚ) (succ fail : ℕ)
  /-- `"⏱️ 監視情報"`: total ping count (the interval is the fixed 1s). -/
  | monitoring (total : ℕ)
  /-- `"⚠️ 到達不能期間"`: the rendered byte string. -/
  | unreachablePeriods (bytes : List ℕ)
  deriving DecidableEq, Repr

/-- The Discord embed built by `sendDailyReport` (structural form). -/
structure DiscordReport where
  date : ℕ
  localIP : String
  color : ℕ
  fields : List EmbedFieldData
  deriving DecidableEq, Repr

/-- The plain-text console report printed by `printDailyReport`
(structural form).  `latencyBlock` is `none` exactly when the source's
`if len(pm.pingResults) > 0` guard skips the response-time block;
`unreachableBlock` carries the printed timestamps (first 10) and the
`"... 他N件"` count (0 when nothing is omitted), and is `none` when the
failure block is skipped. -/
structure ConsoleReport where
  date : ℕ
  localIP : String
  successRate : ℚ
  successCount : ℕ
  failureCount : ℕ
  totalPings : ℕ
  latencyBlock : Option (ℚ × ℚ × ℚ)
  unreachableBlock : Option (List GoTime × ℕ)
  deriving DecidableEq, Repr

/-- `printDailyReport`: the console rendering of the current state. -/
def printDailyReport (pm : PingMonitor) (reportDate : ℕ) : ConsoleReport :=
  { date := reportDate
    localIP := pm.localIP
    successRate := successRate pm
    successCount := pm.pingResults.length
    failureCount := pm.unreachableTimes.length
    totalPings := pm.pingResults.length + pm.unreachableTimes.length
    latencyBlock := if 0 < pm.pingResults.length then some (loopStats pm.pingResults) else none
    unreachableBlock :=
      if 0 < pm.unreachableTimes.length then
        some (pm.unreachableTimes.take 10,
              if 10 < pm.unreachableTimes.length then pm.unreachableTimes.length - 10 else 0)
      else none }

/-- The embed `sendDailyReport` assembles: the three always-present
fields, the colour classification, and the unreachable-periods field
appended exactly when `unreachableCount > 0`. -/
def discordReportData (pm : PingMonitor) (reportDate : ℕ) : DiscordReport :=
  let totalPings := pm.pingResults.length + pm.unreachableTimes.length
  let rate := successRate pm
  let stats := loopStats pm.pingResults
  let unreachableCount := pm.unreachableTimes.length
  let color := if rate < 95 then 16711680 else if rate < 99 then 16750848 else 65280
  let fields := [EmbedFieldData.latencyStats stats.1 stats.2.1 stats.2.2,
                 EmbedFieldData.reachability rate pm.pingResults.length unreachableCount,
                 EmbedFieldData.monitoring totalPings]
  let fields :=
    if 0 < unreachableCount then
      fields ++ [EmbedFieldData.unreachablePeriods (formatUnreachablePeriods pm.unreachableTimes)]
    else fields
  { date := reportDate, localIP := pm.localIP, color := color, fields := fields }

/-! ## Delivery -/

/-- What the environment answers to the single `http.Post` of
`sendToDiscord`: a transport-level error, or a response with a status
code and body. -/
inductive HttpOutcome where
  | transportError (msg : String)
  | response (status : ℕ) (body : String)
  deriving DecidableEq, Repr

/-- The error value `sendToDiscord` surfaces. -/
inductive DeliveryErr where
  /-- the `http.Post` call itself failed -/
  | transport (msg : String)
  /-- `"Discord API error: %d - %s"` with status code and body -/
  | api (status : ℕ) (body : String)
  deriving DecidableEq, Repr

/-- `sendToDiscord`: one POST; any status other than 204
(`http.StatusNoContent`) becomes an error carrying status and body. -/
def sendToDiscord (o : HttpOutcome) : Except DeliveryErr Unit :=
  match o with
  | .transportError m => .error (.transport m)
  | .response s b => if s = 204 then .ok () else .error (.api s b)

/-- Does `pat` occur as a contiguous sublist of the second argument? -/
def listContainsSub (pat : List Char) : List Char → Bool
  | [] => pat.isEmpty
  | c :: tl => pat.isPrefixOf (c :: tl) || listContainsSub pat tl

/-- `strings.Contains`. -/
def containsSubstr (s pat : String) : Bool :=
  listContainsSub pat.toList s.toList

/-- The guard shared by `loadConfig` and `sendDailyReport`: the webhook
URL is absent or a placeholder. -/
def webhookNotConfigured (c : Config) : Bool :=
  c.discordWebhookURL = "" || containsSubstr c.discordWebhookURL "YOUR_WEBHOOK"

/-- Observable actions of one report attempt, in order. -/
inductive Effect where
  /-- `printDailyReport` ran (console report for the given date) -/
  | consoleReport (date : ℕ) (r : ConsoleReport)
  /-- `http.Post` of the embed was attempted -/
  | discordPost (msg : DiscordReport)
  /-- the `"✅ ... Discordに送信しました"` success path -/
  | discordOk (date : ℕ)
  /-- the `"❌ Discord送信エラー"` path -/
  | discordFail (e : DeliveryErr)
  deriving DecidableEq, Repr

/-- `sendDailyReport`: console-only when the webhook is not configured;
otherwise build the embed, attempt delivery once, and fall back to the
console rendering on any delivery error. -/
def sendDailyReport (pm : PingMonitor) (reportDate : ℕ) (http : HttpOutcome) : List Effect :=
  if webhookNotConfigured pm.config then
    [.consoleReport reportDate (printDailyReport pm reportDate)]
  else
    let msg := discordReportData pm reportDate
    match sendToDiscord http with
    | .ok _ => [.discordPost msg, .discordOk reportDate]
    | .error e => [.discordPost msg, .discordFail e,
                   .consoleReport reportDate (printDailyReport pm reportDate)]

/-- Dates of the reports actually produced (to console or delivered to
Discord) in an effect list. -/
def producedReports (effs : List Effect) : List ℕ :=
  effs.filterMap fun e =>
    match e with
    | .consoleReport d _ => some d
    | .discordOk d => some d
    | _ => none

/-- Number of network delivery attempts in an effect list. -/
def postAttempts (effs : List Effect) : ℕ :=
  (effs.filter fun e => match e with | .discordPost _ => true | _ => false).length

/-! ## Lifecycle: `Stop` -/

/-- A Go runtime panic the model can hit. -/
inductive GoPanic where
  /-- `close` of an already-closed channel -/
  | closeOfClosedChannel
  deriving DecidableEq, Repr

/-- `Stop`: set `running = false`, `close(stopChan)` (panics when already
closed), then send the current statistics when any sample or failure is
recorded.  `today` is `time.Now().Format("2006-01-02")`. -/
def Stop (pm : PingMonitor) (today : ℕ) (http : HttpOutcome) :
    Except GoPanic (PingMonitor × List Effect) :=
  let pm := { pm with running := false }
  if pm.stopChanClosed then .error .closeOfClosedChannel
  else
    let pm := { pm with stopChanClosed := true }
    if 0 < pm.pingResults.length ∨ 0 < pm.unreachableTimes.length then
      .ok (pm, sendDailyReport pm today http)
    else
      .ok (pm, [])

/-! ## The monitoring loop -/

/-- The state the `pingLoop` body threads: the monitor plus the local
`lastDay` variable. -/
structure LoopState where
  pm : PingMonitor
  lastDay : ℕ
  deriving DecidableEq, Repr

/-- Per-tick console lines and report effects. -/
inductive TickEffect where
  /-- a report-path effect (rollover report) -/
  | report (e : Effect)
  /-- `"%s - Google ping: %.1fms"` -/
  | tickSuccess (t : GoTime) (rt : ℚ)
  /-- `"%s - Google到達不能"` -/
  | tickUnreachable (t : GoTime)
  /-- the gateway diagnostic line (reachable with latency, or not) -/
  | gatewayDiag (gw : String) (outcome : Option ℚ)
  deriving DecidableEq, Repr

/-- The body of one `ticker.C` iteration of `pingLoop`.
`probeRes` is the outcome of `pingHost(targetIP)` (`some` latency on
success), `gwRes` the outcome of the diagnostic `pingHost(defaultGateway)`
(consulted only on target failure), and `http` the environment's answer
should a report be delivered. -/
def pingLoopTick (s : LoopState) (now : GoTime) (probeRes : Option ℚ)
    (gwRes : Option ℚ) (http : HttpOutcome) : LoopState × List TickEffect :=
  let currentDate := now.day
  -- day-change check
  let rolled :=
    if currentDate ≠ s.lastDay ∧ 0 < s.pm.pingResults.length then
      ((resetDailyData s.pm, currentDate),
       (sendDailyReport s.pm s.lastDay http).map TickEffect.report)
    else ((s.pm, s.lastDay), [])
  let pm := rolled.1.1
  let lastDay := rolled.1.2
  let effs := rolled.2
  match probeRes with
  | some responseTime =>
      ({ pm := { pm with
                 pingResults := pm.pingResults ++
                   [{ timestamp := now, responseTime := responseTime, success := true }] }
         lastDay := lastDay },
       effs ++ [.tickSuccess now responseTime])
  | none =>
      let pm := { pm with unreachableTimes := pm.unreachableTimes ++ [now] }
      let gwEffs := if pm.defaultGateway ≠ "" then [TickEffect.gatewayDiag pm.defaultGateway gwRes] else []
      ({ pm := pm, lastDay := lastDay }, effs ++ [.tickUnreachable now] ++ gwEffs)

/-- The report dates produced during a tick. -/
def tickReports (effs : List TickEffect) : List ℕ :=
  producedReports (effs.filterMap fun e => match e with | .report x => some x | _ => none)

/-! ## `pingHost` and its output parsing (Linux branch)

`ping -c 1 -W 3 host` output is scanned with the regular expression
`time=(\d+\.?\d*).*ms`: leftmost occurrence of `time=` followed by
digits, an optional dot and more digits, requiring `ms` later on the
same line (`.` does not match a newline). -/

/-- ASCII decimal digit test (the regex class `\d`). -/
def isDigitC (c : Char) : Bool := 48 ≤ c.toNat && c.toNat ≤ 57

/-- Numeric value of a digit string. -/
def natOfDigits (ds : List Char) : ℕ :=
  ds.foldl (fun a c => 10 * a + (c.toNat - 48)) 0

/-- Does `ms` occur before any newline (the `.*ms` tail of the regex)? -/
def hasMsBeforeNewline : List Char → Bool
  | 'm' :: 's' :: _ => true
  | c :: tl => if c = '\n' then false else hasMsBeforeNewline tl
  | [] => false

/-- Try the regex match anchored at the head of `s`: `time=` then the
captured `\d+\.?\d*`, then `.*ms`.  Returns the parsed latency. -/
def matchTimeAt (s : List Char) : Option ℚ :=
  if ("time=".toList).isPrefixOf s then
    let rest := s.drop 5
    let ds := rest.takeWhile isDigitC
    let r1 := rest.dropWhile isDigitC
    if ds.isEmpty then none
    else
      let fr : List Char × List Char :=
        match r1 with
        | '.' :: tl => (tl.takeWhile isDigitC, tl.dropWhile isDigitC)
        | _ => ([], r1)
      if hasMsBeforeNewline fr.2 then
        some ((natOfDigits ds : ℚ) + (natOfDigits fr.1 : ℚ) / 10 ^ fr.1.length)
      else none
  else none

/-- Leftmost match of `time=(\d+\.?\d*).*ms` over the command output. -/
def findTimeMatch : List Char → Option ℚ
  | [] => none
  | c :: tl =>
      match matchTimeAt (c :: tl) with
      | some v => some v
      | none => findTimeMatch tl

/-- `pingHost`: `cmdOutput` is `none` when the ping command exits with an
error (then `(0, err)` is returned), otherwise the captured stdout.
`durationNs` is the measured wall-clock time of the command in
nanoseconds; when no latency can be parsed from the output the function
returns `duration.Nanoseconds() / 1e6` milliseconds. -/
def pingHost (cmdOutput : Option (List Char)) (durationNs : ℕ) : Except Unit ℚ :=
  match cmdOutput with
  | none => .error ()
  | some out =>
      match findTimeMatch out with
      | some ms => .ok ms
      | none => .ok ((durationNs : ℚ) / 1000000)

/-! ## Field finders for comparing the two renderings -/

/-- The latency numbers the Discord rendering presents, if any. -/
def discordLatency (r : DiscordReport) : Option (ℚ × ℚ × ℚ) :=
  r.fields.findSome? fun f =>
    match f with
    | .latencyStats a mx mn => some (a, mx, mn)
    | _ => none

/-- The reachability numbers of the Discord rendering, if any. -/
def discordReach (r : DiscordReport) : Option (ℚ × ℕ × ℕ) :=
  r.fields.findSome? fun f =>
    match f with
    | .reachability rate s fl => some (rate, s, fl)
    | _ => none

/-- The total-sample count of the Discord rendering, if any. -/
def discordTotal (r : DiscordReport) : Option ℕ :=
  r.fields.findSome? fun f =>
    match f with
    | .monitoring t => some t
    | _ => none

/-- The unreachable-periods byte string of the Discord rendering, if any. -/
def discordUnreachable (r : DiscordReport) : Option (List ℕ) :=
  r.fields.findSome? fun f =>
    match f with
    | .unreachablePeriods b => some b
    | _ => none

/-! ## Concrete example states used to exercise the claims -/

/-- A fixed timestamp: day 0, 14:30:05. -/
def tEx : GoTime := ⟨0, 14, 30, 5⟩

/-- A configuration with no webhook set. -/
def cfgUnset : Config := ⟨""⟩

/-- A configuration with a real-looking webhook. -/
def cfgSet : Config := ⟨"https://example.invalid/webhooks/123/tok"⟩

/-- Three successes (10, 20, 30 ms) and one failure. -/
def pmEx : PingMonitor :=
  { pingResults := [⟨tEx, 10, true⟩, ⟨tEx, 20, true⟩, ⟨tEx, 30, true⟩]
    unreachableTimes := [tEx]
    running := true
    stopChanClosed := false
    config := cfgUnset
    defaultGateway := "192.168.1.1"
    localIP := "192.168.1.100" }

/-- One success recorded, webhook unset, stop channel still open. -/
def pmStopEx : PingMonitor :=
  { pingResults := [⟨tEx, 10, true⟩]
    unreachableTimes := []
    running := true
    stopChanClosed := false
    config := cfgUnset
    defaultGateway := "192.168.1.1"
    localIP := "192.168.1.100" }

/-- `pmStopEx` after a first successful `Stop`. -/
def pmStopExAfter : PingMonitor :=
  { pmStopEx with running := false, stopChanClosed := true }

/-- A day with only failures recorded: one failure, no successes. -/
def pmFailOnly : PingMonitor :=
  { pingResults := []
    unreachableTimes := [tEx]
    running := true
    stopChanClosed := false
    config := cfgUnset
    defaultGateway := "192.168.1.1"
    localIP := "192.168.1.100" }

/-- Loop state on day 0 holding only a failure sample. -/
def loopFailOnly : LoopState := { pm := pmFailOnly, lastDay := 0 }

/-- A tick timestamp on the next calendar day. -/
def tNextDay : GoTime := ⟨1, 0, 0, 1⟩

/-- Loop state on day 0 holding `pmEx` (successes and a failure). -/
def loopEx : LoopState := { pm := pmEx, lastDay := 0 }

/-- `pmEx` with a configured webhook. -/
def pmExSet : PingMonitor := { pmEx with config := cfgSet }

/-- Twelve failure timestamps (overflow case for the periods field). -/
def times12 : List GoTime := List.replicate 12 tEx

/-- Two failure timestamps (small case for the periods field). -/
def times2 : List GoTime := [tEx, ⟨0, 14, 30, 6⟩]

/-- Enough failure timestamps that the rendered field overflows 1024
bytes: the omitted count `10 ^ 924` has 925 decimal digits. -/
def timesBig : List GoTime := List.replicate (10 ^ 924 + 10) tEx

/-! # Theorems -/

/-! ## Helper lemmas about the statistics folds -/

lemma sumResp_eq (l : List PingResult) (a : ℚ) :
    sumResp a l = a + (l.map PingResult.responseTime).sum := by
  induction l generalizing a with
  | nil => simp [sumResp]
  | cons r t ih =>
      simp only [sumResp, List.foldl_cons] at *
      rw [ih]
      simp [add_assoc]

lemma le_maxResp (l : List PingResult) (a : ℚ) : a ≤ maxResp a l := by
  induction l generalizing a with
  | nil => simp [maxResp]
  | cons r t ih =>
      simp only [maxResp, List.foldl_cons] at *
      refine le_trans ?_ (ih _)
      split <;> [exact le_of_lt (by assumption); exact le_rfl]

lemma mem_le_maxResp (l : List PingResult) (a : ℚ) (r : PingResult) (h : r ∈ l) :
    r.responseTime ≤ maxResp a l := by
  induction l generalizing a with
  | nil => cases h
  | cons x t ih =>
      rcases List.mem_cons.mp h with rfl | hm
      · simp only [maxResp, List.foldl_cons]
        refine le_trans ?_ (le_maxResp t _)
        split <;> [exact le_rfl; exact le_of_not_lt (by assumption)]
      · simp only [maxResp, List.foldl_cons]
        exact ih _ hm

lemma minResp_le (l : List PingResult) (a : ℚ) : minResp a l ≤ a := by
  induction l generalizing a with
  | nil => simp [minResp]
  | cons r t ih =>
      simp only [minResp, List.foldl_cons] at *
      refine le_trans (ih _) ?_
      split <;> [exact le_of_lt (by assumption); exact le_rfl]

lemma minResp_le_mem (l : List PingResult) (a : ℚ) (r : PingResult) (h : r ∈ l) :
    minResp a l ≤ r.responseTime := by
  induction l generalizing a with
  | nil => cases h
  | cons x t ih =>
      rcases List.mem_cons.mp h with rfl | hm
      · simp only [minResp, List.foldl_cons]
        refine le_trans (minResp_le t _) ?_
        split <;> [exact le_rfl; exact le_of_not_lt (by assumption)]
      · simp only [minResp, List.foldl_cons]
        exact ih _ hm

/-! ## C2 -/

/-- Claim C2: for every accumulator state the reported success rate —
rendered as `%.2f%%`, so the program's `successRate` value is the rate in
percent — equals `successes / (successes + failures)` when at least one
sample exists, and equals `0` when there are no samples at all. -/
theorem successRate_spec (pm : PingMonitor) :
    (0 < pm.pingResults.length + pm.unreachableTimes.length →
      successRate pm / 100 =
        (pm.pingResults.length : ℚ) /
          ((pm.pingResults.length : ℚ) + (pm.unreachableTimes.length : ℚ)))
    ∧ (pm.pingResults.length + pm.unreachableTimes.length = 0 → successRate pm = 0) := by
  constructor
  · intro h
    simp only [successRate, if_pos h]
    push_cast
    exact mul_div_cancel_right₀ _ (by norm_num)
  · intro h
    simp [successRate, h]

/-- Witness for C2: three successes and one failure give a reported rate
of 75%, i.e. `3 / 4`. -/
theorem successRate_spec_witness :
    0 < pmEx.pingResults.length + pmEx.unreachableTimes.length ∧
      successRate pmEx / 100 =
        (pmEx.pingResults.length : ℚ) /
          ((pmEx.pingResults.length : ℚ) + (pmEx.unreachableTimes.length : ℚ)) :=
  ⟨by decide, (successRate_spec pmEx).1 (by decide)⟩

/-! ## C5 -/

/-- Claim C5: over every non-empty list of recorded success samples the
statistics loop shared by `sendDailyReport` and `printDailyReport`
reports `min ≤ average ≤ max`, and the reported average is the
arithmetic mean of the recorded latencies. -/
theorem loopStats_spec (l : List PingResult) (h : l ≠ []) :
    (loopStats l).2.2 ≤ (loopStats l).1
    ∧ (loopStats l).1 ≤ (loopStats l).2.1
    ∧ (loopStats l).1 = (l.map PingResult.responseTime).sum / (l.length : ℚ) := by
  obtain ⟨r0, t, rfl⟩ := List.exists_cons_of_ne_nil h
  have hlen : 0 < ((r0 :: t).length : ℚ) := by
    exact_mod_cast List.length_pos.mpr h
  have hsum : sumResp 0 (r0 :: t) = ((r0 :: t).map PingResult.responseTime).sum := by
    rw [sumResp_eq]; ring
  refine ⟨?_, ?_, ?_⟩
  · -- min ≤ average
    show minResp r0.responseTime (r0 :: t) ≤ sumResp 0 (r0 :: t) / ((r0 :: t).length : ℚ)
    rw [le_div_iff₀ hlen, hsum]
    have hb : ∀ x ∈ (r0 :: t).map PingResult.responseTime,
        minResp r0.responseTime (r0 :: t) ≤ x := by
      intro x hx
      obtain ⟨r, hr, rfl⟩ := List.mem_map.mp hx
      exact minResp_le_mem _ _ _ hr
    have := List.card_nsmul_le_sum ((r0 :: t).map PingResult.responseTime) _ hb
    simpa [nsmul_eq_mul, mul_comm] using this
  · -- average ≤ max
    show sumResp 0 (r0 :: t) / ((r0 :: t).length : ℚ) ≤ maxResp r0.responseTime (r0 :: t)
    rw [div_le_iff₀ hlen, hsum]
    have hb : ∀ x ∈ (r0 :: t).map PingResult.responseTime,
        x ≤ maxResp r0.responseTime (r0 :: t) := by
      intro x hx
      obtain ⟨r, hr, rfl⟩ := List.mem_map.mp hx
      exact mem_le_maxResp _ _ _ hr
    have := List.sum_le_card_nsmul ((r0 :: t).map PingResult.responseTime) _ hb
    simpa [nsmul_eq_mul, mul_comm] using this
  · show sumResp 0 (r0 :: t) / ((r0 :: t).length : ℚ) = _
    rw [hsum]

/-- Witness for C5: latencies `[10, 20, 30]` give min 10 ≤ avg 20 ≤
max 30, and the average is the arithmetic mean `60 / 3`. -/
theorem loopStats_spec_witness :
    (loopStats pmEx.pingResults).2.2 ≤ (loopStats pmEx.pingResults).1
    ∧ (loopStats pmEx.pingResults).1 ≤ (loopStats pmEx.pingResults).2.1
    ∧ (loopStats pmEx.pingResults).1 =
        (pmEx.pingResults.map PingResult.responseTime).sum / (pmEx.pingResults.length : ℚ) :=
  loopStats_spec pmEx.pingResults (by decide)

/-! ## C7: the unreachable-periods field -/

lemma formatTimeBytes_length (t : GoTime) : (formatTimeBytes t).length = 8 := rfl

lemma joinNl_length (L : List (List ℕ)) (hL : L ≠ []) (h8 : ∀ x ∈ L, x.length = 8) :
    (joinNl L).length = 9 * L.length - 1 := by
  induction L with
  | nil => cases hL rfl
  | cons x xs ih =>
      cases xs with
      | nil => simp [joinNl, h8 x (by simp)]
      | cons y ys =>
          have hrec := ih (by simp) (fun z hz => h8 z (List.mem_cons_of_mem _ hz))
          simp only [joinNl, List.length_append, List.length_cons, hrec, h8 x (by simp)]
          have : 0 < (y :: ys).length := by simp
          omega

lemma joinNl_map_length (l : List GoTime) (hne : l ≠ []) :
    (joinNl (l.map formatTimeBytes)).length = 9 * l.length - 1 := by
  rw [joinNl_length]
  · simp
  · simpa using hne
  · intro x hx
    obtain ⟨t, _, rfl⟩ := List.mem_map.mp hx
    exact formatTimeBytes_length t

lemma moreSuffix_length (n : ℕ) :
    (moreSuffix n).length = 11 + (natDigitBytes n).length := by
  simp [moreSuffix]
  omega

lemma clipTo1024_le (R : List ℕ) :
    (if 1024 < R.length then R.take 1020 ++ [46, 46, 46] else R).length ≤ 1024 := by
  by_cases h : 1024 < R.length
  · rw [if_pos h]
    simp only [List.length_append, List.length_take, List.length_cons, List.length_nil]
    omega
  · rw [if_neg h]
    omega

lemma formatUnreachable_le (l : List GoTime) :
    (formatUnreachablePeriods l).length ≤ 1024 := by
  by_cases hne : l = []
  · subst hne
    simp [formatUnreachablePeriods, naShiBytes]
  · simp only [formatUnreachablePeriods, if_neg hne]
    exact clipTo1024_le _

lemma formatUnreachable_small (l : List GoTime) (hne : l ≠ []) (hle : l.length ≤ 10) :
    formatUnreachablePeriods l = joinNl (l.map formatTimeBytes) := by
  have h10 : ¬ 10 < l.length := by omega
  have hnotr : ¬ 1024 < (joinNl (l.map formatTimeBytes)).length := by
    rw [joinNl_map_length l hne]
    omega
  simp only [formatUnreachablePeriods, if_neg hne, List.take_of_length_le hle, if_neg h10,
    if_neg hnotr]

lemma formatUnreachable_overflow (l : List GoTime) (h10 : 10 < l.length)
    (hd : (natDigitBytes (l.length - 10)).length ≤ 900) :
    formatUnreachablePeriods l =
      joinNl ((l.take 10).map formatTimeBytes) ++ moreSuffix (l.length - 10) := by
  have hne : l ≠ [] := by
    intro h
    rw [h] at h10
    simp at h10
  have htake : (l.take 10) ≠ [] := by
    have hlen : (l.take 10).length = 10 := by
      rw [List.length_take]
      omega
    intro h
    rw [h] at hlen
    simp at hlen
  have hjoin : (joinNl ((l.take 10).map formatTimeBytes)).length = 89 := by
    rw [joinNl_map_length _ htake, List.length_take]
    omega
  have hnotr :
      ¬ 1024 < (joinNl ((l.take 10).map formatTimeBytes) ++ moreSuffix (l.length - 10)).length := by
    rw [List.length_append, hjoin, moreSuffix_length]
    omega
  simp only [formatUnreachablePeriods, if_neg hne, if_pos h10, if_neg hnotr]

lemma drop_len_append {α : Type} (a b : List α) (n : ℕ) (h : a.length = n) :
    (a ++ b).drop n = b := by
  subst h
  exact List.drop_left a b

lemma formatUnreachable_trunc (l : List GoTime) (h10 : 10 < l.length)
    (hd : 925 ≤ (natDigitBytes (l.length - 10)).length) :
    (formatUnreachablePeriods l).length = 1023 ∧
    (formatUnreachablePeriods l).drop 1020 = [46, 46, 46] := by
  have hne : l ≠ [] := by
    intro h
    rw [h] at h10
    simp at h10
  have htake : (l.take 10) ≠ [] := by
    have hlen : (l.take 10).length = 10 := by
      rw [List.length_take]
      omega
    intro h
    rw [h] at hlen
    simp at hlen
  have hjoin : (joinNl ((l.take 10).map formatTimeBytes)).length = 89 := by
    rw [joinNl_map_length _ htake, List.length_take]
    omega
  have hraw : (joinNl ((l.take 10).map formatTimeBytes) ++ moreSuffix (l.length - 10)).length =
      100 + (natDigitBytes (l.length - 10)).length := by
    rw [List.length_append, hjoin, moreSuffix_length]
    omega
  have hgt : 1024 <
      (joinNl ((l.take 10).map formatTimeBytes) ++ moreSuffix (l.length - 10)).length := by
    rw [hraw]; omega
  have hout : formatUnreachablePeriods l =
      (joinNl ((l.take 10).map formatTimeBytes) ++ moreSuffix (l.length - 10)).take 1020 ++
        [46, 46, 46] := by
    simp only [formatUnreachablePeriods, if_neg hne, if_pos h10, if_pos hgt]
  have h1020 :
      ((joinNl ((l.take 10).map formatTimeBytes) ++ moreSuffix (l.length - 10)).take 1020).length
        = 1020 := by
    rw [List.length_take]
    omega
  constructor
  · rw [hout, List.length_append, h1020]
    rfl
  · rw [hout, drop_len_append _ _ _ h1020]

/-- Claim C7: the rendered failure-periods field shows at most 10
timestamp entries — all of them (no suffix) when there are at most 10,
and exactly the first 10 followed by the `"... 他N件"` suffix stating the
omitted count when there are more; the rendered field never exceeds 1024
bytes, and when the raw rendering would exceed that (an omitted count of
at least 925 digits) it is truncated to 1020 bytes plus an ellipsis. -/
theorem formatUnreachablePeriods_spec (l : List GoTime) :
    (formatUnreachablePeriods l).length ≤ 1024
    ∧ (l ≠ [] → l.length ≤ 10 →
        formatUnreachablePeriods l = joinNl (l.map formatTimeBytes))
    ∧ (10 < l.length → (natDigitBytes (l.length - 10)).length ≤ 900 →
        formatUnreachablePeriods l =
          joinNl ((l.take 10).map formatTimeBytes) ++ moreSuffix (l.length - 10))
    ∧ (10 < l.length → 925 ≤ (natDigitBytes (l.length - 10)).length →
        (formatUnreachablePeriods l).length = 1023 ∧
        (formatUnreachablePeriods l).drop 1020 = [46, 46, 46]) :=
  ⟨formatUnreachable_le l, formatUnreachable_small l,
   formatUnreachable_overflow l, formatUnreachable_trunc l⟩

lemma natDigitBytes_pow10_len (k : ℕ) : (natDigitBytes (10 ^ k)).length = k + 1 := by
  induction k with
  | zero =>
      rw [pow_zero, natDigitBytes.eq_def]
      norm_num
  | succ k ih =>
      have h1 : ¬ 10 ^ (k + 1) < 10 := by
        have : (10 : ℕ) ^ 1 ≤ 10 ^ (k + 1) := Nat.pow_le_pow_right (by norm_num) (by omega)
        simpa using this
      have hdiv : 10 ^ (k + 1) / 10 = 10 ^ k := by
        rw [pow_succ]
        exact Nat.mul_div_cancel _ (by norm_num)
      rw [natDigitBytes.eq_def, dif_neg h1, hdiv]
      simp [ih]

/-- Witness for C7: two timestamps render in full with no suffix; twelve
timestamps render as the first ten plus a `+2` suffix; `10 ^ 924 + 10`
timestamps overflow the 1024-byte cap and are truncated with an
ellipsis. -/
theorem formatUnreachablePeriods_spec_witness :
    (formatUnreachablePeriods times12).length ≤ 1024
    ∧ formatUnreachablePeriods times2 = joinNl (times2.map formatTimeBytes)
    ∧ formatUnreachablePeriods times12 =
        joinNl ((times12.take 10).map formatTimeBytes) ++ moreSuffix (times12.length - 10)
    ∧ (formatUnreachablePeriods timesBig).length = 1023 := by
  have hbig : timesBig.length = 10 ^ 924 + 10 := by
    simp [timesBig]
  have hd : 925 ≤ (natDigitBytes (timesBig.length - 10)).length := by
    rw [hbig, Nat.add_sub_cancel, natDigitBytes_pow10_len]
  refine ⟨(formatUnreachablePeriods_spec times12).1,
    (formatUnreachablePeriods_spec times2).2.1 (by decide) (by decide),
    (formatUnreachablePeriods_spec times12).2.2.1 (by decide) ?_,
    ((formatUnreachablePeriods_spec timesBig).2.2.2
      (by rw [hbig]; have := pow_pos (show 0 < (10 : ℕ) by norm_num) 924; omega) hd).1⟩
  rw [show times12.length - 10 = 2 by decide, natDigitBytes.eq_def]
  norm_num

/-! ## Delivery and the stop sequence -/

/-- Every path of `sendDailyReport` produces exactly one report for the
requested date, to Discord or to the console. -/
lemma producedReports_sendDailyReport (pm : PingMonitor) (d : ℕ) (http : HttpOutcome) :
    producedReports (sendDailyReport pm d http) = [d] := by
  by_cases h : webhookNotConfigured pm.config
  · simp [sendDailyReport, h, producedReports]
  · rcases hs : sendToDiscord http with e | u <;>
      simp [sendDailyReport, h, hs, producedReports]

/-- Claim C6: with no webhook configured (absent or placeholder URL) the
report short-circuits to console output with no network attempt; with a
webhook configured exactly one delivery attempt is made, and a non-204
response or transport error is surfaced as an error carrying the status
code and body (resp. the transport error), followed by the console
fallback rendering of the same report. -/
theorem sendDailyReport_delivery (pm : PingMonitor) (d : ℕ) (http : HttpOutcome) :
    (webhookNotConfigured pm.config = true →
       sendDailyReport pm d http = [.consoleReport d (printDailyReport pm d)]
       ∧ postAttempts (sendDailyReport pm d http) = 0)
    ∧ (webhookNotConfigured pm.config = false →
       postAttempts (sendDailyReport pm d http) = 1
       ∧ (∀ st b, http = .response st b → st ≠ 204 →
            sendDailyReport pm d http =
              [.discordPost (discordReportData pm d),
               .discordFail (.api st b),
               .consoleReport d (printDailyReport pm d)])
       ∧ (∀ m, http = .transportError m →
            sendDailyReport pm d http =
              [.discordPost (discordReportData pm d),
               .discordFail (.transport m),
               .consoleReport d (printDailyReport pm d)])) := by
  constructor
  · intro h
    simp [sendDailyReport, h, postAttempts]
  · intro h
    refine ⟨?_, ?_, ?_⟩
    · rcases hs : sendToDiscord http with e | u <;>
        simp [sendDailyReport, h, hs, postAttempts]
    · rintro st b rfl hst
      have hs : sendToDiscord (.response st b) = .error (.api st b) := by
        simp [sendToDiscord, hst]
      simp [sendDailyReport, h, hs]
    · rintro m rfl
      simp [sendDailyReport, h, sendToDiscord]

/-- Witness for C6: with a configured webhook and a 500 response, one
post is attempted and the error surfaces the status and body, followed by
the console fallback. -/
theorem sendDailyReport_delivery_witness :
    webhookNotConfigured pmExSet.config = false
    ∧ postAttempts (sendDailyReport pmExSet 2 (.response 500 "oops")) = 1
    ∧ sendDailyReport pmExSet 2 (.response 500 "oops") =
        [.discordPost (discordReportData pmExSet 2),
         .discordFail (.api 500 "oops"),
         .consoleReport 2 (printDailyReport pmExSet 2)] :=
  ⟨by decide,
   ((sendDailyReport_delivery pmExSet 2 (.response 500 "oops")).2 (by decide)).1,
   ((sendDailyReport_delivery pmExSet 2 (.response 500 "oops")).2 (by decide)).2.1
     500 "oops" rfl (by decide)⟩

/-- Claim C4: on the shutdown flush, when the day log has any content a
report for the current date is produced and the recorded samples and
failure timestamps are left untouched; when it is empty, `sendDailyReport`
is not invoked at all (no effects). -/
theorem Stop_flush_frame (pm : PingMonitor) (today : ℕ) (http : HttpOutcome)
    (hopen : pm.stopChanClosed = false) :
    (pm.pingResults ≠ [] ∨ pm.unreachableTimes ≠ [] →
       ∃ pm2 effs, Stop pm today http = .ok (pm2, effs)
         ∧ producedReports effs = [today]
         ∧ pm2.pingResults = pm.pingResults
         ∧ pm2.unreachableTimes = pm.unreachableTimes)
    ∧ (pm.pingResults = [] → pm.unreachableTimes = [] →
       Stop pm today http =
         .ok ({ pm with running := false, stopChanClosed := true }, [])) := by
  constructor
  · intro h
    have hc : 0 < pm.pingResults.length ∨ 0 < pm.unreachableTimes.length := by
      rcases h with h | h
      · exact Or.inl (List.length_pos.mpr h)
      · exact Or.inr (List.length_pos.mpr h)
    refine ⟨{ pm with running := false, stopChanClosed := true },
      sendDailyReport { pm with running := false, stopChanClosed := true } today http,
      ?_, ?_, rfl, rfl⟩
    · simp [Stop, hopen, hc]
    · exact producedReports_sendDailyReport _ _ _
  · intro h1 h2
    have hc : ¬ (0 < pm.pingResults.length ∨ 0 < pm.unreachableTimes.length) := by
      simp [h1, h2]
    simp [Stop, hopen, hc]

/-- Witness for C4: a monitor with one recorded success flushes exactly
one report for the current date and keeps its samples; an empty monitor
flushes nothing. -/
theorem Stop_flush_frame_witness :
    (∃ pm2 effs, Stop pmStopEx 5 (.response 204 "") = .ok (pm2, effs)
       ∧ producedReports effs = [5]
       ∧ pm2.pingResults = pmStopEx.pingResults
       ∧ pm2.unreachableTimes = pmStopEx.unreachableTimes) :=
  (Stop_flush_frame pmStopEx 5 (.response 204 "") (by decide)).1 (Or.inl (by decide))

/-- Claim C3 records the intended behaviour; the code violates it, as
exhibited here: after a first successful `Stop` (which flushes one report), a
second `Stop` panics on `close(pm.stopChan)` — it neither is a no-op nor
merely skips the report, contradicting the claim that a second stop
neither sends nor fails. -/
theorem Stop_second_invocation_panics :
    Stop pmStopEx 5 (.response 204 "") =
      .ok (pmStopExAfter, sendDailyReport pmStopExAfter 5 (.response 204 ""))
    ∧ producedReports (sendDailyReport pmStopExAfter 5 (.response 204 "")) = [5]
    ∧ Stop pmStopExAfter 5 (.response 204 "") = .error .closeOfClosedChannel :=
  ⟨rfl, by decide, rfl⟩

/-! ## Day rollover and tick behaviour -/

lemma tickReports_append (a b : List TickEffect) :
    tickReports (a ++ b) = tickReports a ++ tickReports b := by
  simp [tickReports, producedReports, List.filterMap_append]

lemma tickReports_map_report (es : List Effect) :
    tickReports (es.map TickEffect.report) = producedReports es := by
  simp only [tickReports, List.filterMap_map]
  have : (fun e => (match TickEffect.report e with
      | .report x => some x
      | _ => none : Option Effect)) = some := by
    funext e
    rfl
  rw [Function.comp_def, this, List.filterMap_some]

lemma tickReports_succLine (t : GoTime) (rt : ℚ) :
    tickReports [TickEffect.tickSuccess t rt] = [] := rfl

lemma tickReports_unreachLine (t : GoTime) :
    tickReports [TickEffect.tickUnreachable t] = [] := rfl

lemma tickReports_gwLine (c : Prop) [Decidable c] (g : String) (r : Option ℚ) :
    tickReports (if c then [TickEffect.gatewayDiag g r] else []) = [] := by
  split <;> rfl

/-- Counterexample to claim C1 as stated: a day log holding a failure
timestamp but no success sample is non-empty, yet on a tick of the next
day no report is generated and the accumulator still holds the old
failure timestamp afterwards. -/
theorem rollover_counterexample :
    tNextDay.day ≠ loopFailOnly.lastDay
    ∧ loopFailOnly.pm.unreachableTimes ≠ []
    ∧ tickReports (pingLoopTick loopFailOnly tNextDay (some 10) none (.response 204 "")).2 = []
    ∧ (pingLoopTick loopFailOnly tNextDay (some 10) none (.response 204 "")).1.pm.unreachableTimes
        = [tEx] := by
  refine ⟨by decide, by decide, by decide, by decide⟩

/-- Claim C1, amended: on a tick whose date differs from `lastDay` a
rollover happens only when at least one success sample is recorded —
then exactly one report attributed to the earlier date is produced and
the accumulator is reset before the tick's own sample is recorded; when
no success sample is recorded (even if failure timestamps exist) no
report is generated, `lastDay` is not advanced and the old failure
timestamps are carried into the new day. -/
theorem rollover_amended (s : LoopState) (now : GoTime) (probe gw : Option ℚ)
    (http : HttpOutcome) (hday : now.day ≠ s.lastDay) :
    (0 < s.pm.pingResults.length →
       tickReports (pingLoopTick s now probe gw http).2 = [s.lastDay]
       ∧ (pingLoopTick s now probe gw http).1.lastDay = now.day
       ∧ (pingLoopTick s now probe gw http).1.pm.pingResults
           = (resetDailyData s.pm).pingResults ++
             (probe.map fun rt =>
               ({ timestamp := now, responseTime := rt, success := true } : PingResult)).toList
       ∧ (pingLoopTick s now probe gw http).1.pm.unreachableTimes
           = (resetDailyData s.pm).unreachableTimes ++ (if probe.isNone then [now] else []))
    ∧ (s.pm.pingResults = [] →
       tickReports (pingLoopTick s now probe gw http).2 = []
       ∧ (pingLoopTick s now probe gw http).1.lastDay = s.lastDay
       ∧ (pingLoopTick s now probe gw http).1.pm.pingResults
           = s.pm.pingResults ++
             (probe.map fun rt =>
               ({ timestamp := now, responseTime := rt, success := true } : PingResult)).toList
       ∧ (pingLoopTick s now probe gw http).1.pm.unreachableTimes
           = s.pm.unreachableTimes ++ (if probe.isNone then [now] else [])) := by
  constructor
  · intro hpos
    have hc : now.day ≠ s.lastDay ∧ 0 < s.pm.pingResults.length := ⟨hday, hpos⟩
    cases probe with
    | some rt =>
        refine ⟨?_, ?_, ?_, ?_⟩
        · simp only [pingLoopTick, if_pos hc]
          rw [tickReports_append, tickReports_map_report, producedReports_sendDailyReport,
            tickReports_succLine]
          simp
        · simp [pingLoopTick, if_pos hc]
        · simp [pingLoopTick, if_pos hc, resetDailyData]
        · simp [pingLoopTick, if_pos hc, resetDailyData]
    | none =>
        refine ⟨?_, ?_, ?_, ?_⟩
        · simp only [pingLoopTick, if_pos hc]
          rw [tickReports_append, tickReports_append, tickReports_map_report,
            producedReports_sendDailyReport, tickReports_unreachLine, tickReports_gwLine]
          simp
        · simp [pingLoopTick, if_pos hc]
        · simp [pingLoopTick, if_pos hc, resetDailyData]
        · simp [pingLoopTick, if_pos hc, resetDailyData]
  · intro hnil
    have hc : ¬ (now.day ≠ s.lastDay ∧ 0 < s.pm.pingResults.length) := by
      simp [hnil]
    cases probe with
    | some rt =>
        refine ⟨?_, ?_, ?_, ?_⟩
        · simp only [pingLoopTick, if_neg hc, List.nil_append]
          exact tickReports_succLine now rt
        · simp [pingLoopTick, if_neg hc]
        · simp [pingLoopTick, if_neg hc]
        · simp [pingLoopTick, if_neg hc]
    | none =>
        refine ⟨?_, ?_, ?_, ?_⟩
        · simp only [pingLoopTick, if_neg hc, List.nil_append]
          rw [tickReports_append, tickReports_unreachLine, tickReports_gwLine]
          rfl
        · simp [pingLoopTick, if_neg hc]
        · simp [pingLoopTick, if_neg hc]
        · simp [pingLoopTick, if_neg hc]

/-- Witness for C1 (amended): rolling `pmEx` (3 successes, day 0) over
to day 1 with a successful probe produces exactly one report for day 0
and leaves only the new sample in the accumulator. -/
theorem rollover_amended_witness :
    tickReports (pingLoopTick loopEx tNextDay (some 7) none (.response 204 "")).2 = [0]
    ∧ (pingLoopTick loopEx tNextDay (some 7) none (.response 204 "")).1.pm.pingResults
        = [{ timestamp := tNextDay, responseTime := 7, success := true }] := by
  have h := (rollover_amended loopEx tNextDay (some 7) none (.response 204 "")
    (by decide)).1 (by decide)
  exact ⟨h.1, by rw [h.2.2.1]; decide⟩

/-- Claim C9: on a tick whose probe of the target fails (and that does
not cross a date boundary) exactly one failure timestamp is appended,
the success samples are untouched, and the outcome of the diagnostic
gateway probe has no influence on the resulting monitor state. -/
theorem gateway_probe_frame (s : LoopState) (now : GoTime) (gw gw2 : Option ℚ)
    (http : HttpOutcome) (hday : now.day = s.lastDay) :
    (pingLoopTick s now none gw http).1.pm.unreachableTimes
        = s.pm.unreachableTimes ++ [now]
    ∧ (pingLoopTick s now none gw http).1.pm.pingResults = s.pm.pingResults
    ∧ (pingLoopTick s now none gw http).1 = (pingLoopTick s now none gw2 http).1 := by
  have hc : ¬ (now.day ≠ s.lastDay ∧ 0 < s.pm.pingResults.length) := by
    simp [hday]
  refine ⟨?_, ?_, rfl⟩ <;> simp [pingLoopTick, if_neg hc]

/-- Witness for C9: a failing tick on `pmEx`'s day appends exactly the
tick timestamp to the failure list and keeps the three success samples. -/
theorem gateway_probe_frame_witness :
    (pingLoopTick loopEx tEx none (some 1) (.response 204 "")).1.pm.unreachableTimes
        = loopEx.pm.unreachableTimes ++ [tEx]
    ∧ (pingLoopTick loopEx tEx none (some 1) (.response 204 "")).1.pm.pingResults
        = loopEx.pm.pingResults
    ∧ (pingLoopTick loopEx tEx none (some 1) (.response 204 "")).1
        = (pingLoopTick loopEx tEx none none (.response 204 "")).1 :=
  gateway_probe_frame loopEx tEx (some 1) none (.response 204 "") (by decide)

/-! ## The two report renderings -/

/-- Counterexample to claim C8 as stated: with no successes and one
failure recorded, the Discord rendering carries a latency field (with
zero values) that the console rendering omits, so the console fallback
is missing information present in the remote form. -/
theorem renderings_counterexample :
    EmbedFieldData.latencyStats 0 0 0 ∈ (discordReportData pmFailOnly 3).fields
    ∧ (printDailyReport pmFailOnly 3).latencyBlock = none := by
  refine ⟨by decide, by decide⟩

/-- Claim C8, amended: the two renderings derive from the same state and
agree on success count, failure count, success rate, total samples, date
and source address in every state; they agree on average/max/min latency
whenever at least one success is recorded, but in a state with no
successes the Discord form still shows a latency field (zeros) that the
console omits; the failure-timestamp blocks appear under the same
condition (at least one failure) and present the same first ten
timestamps and the same omitted count. -/
theorem renderings_amended (pm : PingMonitor) (d : ℕ) :
    discordReach (discordReportData pm d) =
      some ((printDailyReport pm d).successRate,
            (printDailyReport pm d).successCount,
            (printDailyReport pm d).failureCount)
    ∧ discordTotal (discordReportData pm d) = some (printDailyReport pm d).totalPings
    ∧ (discordReportData pm d).date = (printDailyReport pm d).date
    ∧ (discordReportData pm d).localIP = (printDailyReport pm d).localIP
    ∧ discordLatency (discordReportData pm d) = some (loopStats pm.pingResults)
    ∧ (0 < pm.pingResults.length →
        (printDailyReport pm d).latencyBlock = some (loopStats pm.pingResults))
    ∧ (pm.pingResults = [] → (printDailyReport pm d).latencyBlock = none)
    ∧ ((discordUnreachable (discordReportData pm d)).isSome ↔
        ((printDailyReport pm d).unreachableBlock).isSome)
    ∧ (∀ shown extra, (printDailyReport pm d).unreachableBlock = some (shown, extra) →
        discordUnreachable (discordReportData pm d) =
          some (formatUnreachablePeriods pm.unreachableTimes)
        ∧ shown = pm.unreachableTimes.take 10
        ∧ (pm.unreachableTimes.length ≤ 10 →
            formatUnreachablePeriods pm.unreachableTimes = joinNl (shown.map formatTimeBytes)
            ∧ extra = 0)
        ∧ (10 < pm.unreachableTimes.length → extra = pm.unreachableTimes.length - 10)) := by
  by_cases hu : 0 < pm.unreachableTimes.length
  · refine ⟨?_, ?_, rfl, rfl, ?_, ?_, ?_, ?_, ?_⟩
    · simp [discordReportData, discordReach, printDailyReport, if_pos hu, List.findSome?_cons]
    · simp [discordReportData, discordTotal, printDailyReport, if_pos hu, List.findSome?_cons]
    · simp [discordReportData, discordLatency, if_pos hu, List.findSome?_cons]
    · intro hp
      simp [printDailyReport, if_pos hp]
    · intro hp
      simp [printDailyReport, hp]
    · simp [discordReportData, discordUnreachable, printDailyReport, if_pos hu,
        List.findSome?_cons]
    · intro shown extra hsome
      have hne : pm.unreachableTimes ≠ [] := by
        intro h
        rw [h] at hu
        simp at hu
      simp only [printDailyReport, if_pos hu, Option.some_inj] at hsome
      obtain ⟨hshown, hextra⟩ := Prod.mk.injEq .. ▸ hsome
      refine ⟨?_, hshown.symm, ?_, ?_⟩
      · simp [discordReportData, discordUnreachable, if_pos hu, List.findSome?_cons]
      · intro hle
        constructor
        · rw [formatUnreachable_small pm.unreachableTimes hne hle, hshown.symm,
            List.take_of_length_le hle]
        · rw [hextra.symm, if_neg (by omega)]
      · intro hgt
        rw [hextra.symm, if_pos hgt]
  · have hnil : pm.unreachableTimes = [] := by
      cases h : pm.unreachableTimes with
      | nil => rfl
      | cons a t => rw [h] at hu; simp at hu
    refine ⟨?_, ?_, rfl, rfl, ?_, ?_, ?_, ?_, ?_⟩
    · simp [discordReportData, discordReach, printDailyReport, hnil, List.findSome?_cons]
    · simp [discordReportData, discordTotal, printDailyReport, hnil, List.findSome?_cons]
    · simp [discordReportData, discordLatency, hnil, List.findSome?_cons]
    · intro hp
      simp [printDailyReport, if_pos hp]
    · intro hp
      simp [printDailyReport, hp]
    · simp [discordReportData, discordUnreachable, printDailyReport, hnil,
        List.findSome?_cons]
    · intro shown extra hsome
      simp [printDailyReport, hnil] at hsome

/-- Witness for C8 (amended): on `pmEx` (3 successes, 1 failure) the two
renderings agree on the reachability numbers, the latency block is shown
by both with the same values, and the failure block of the remote form
is exactly the rendered failure list. -/
theorem renderings_amended_witness :
    discordReach (discordReportData pmEx 2) =
      some ((printDailyReport pmEx 2).successRate,
            (printDailyReport pmEx 2).successCount,
            (printDailyReport pmEx 2).failureCount)
    ∧ (printDailyReport pmEx 2).latencyBlock = some (loopStats pmEx.pingResults)
    ∧ discordUnreachable (discordReportData pmEx 2) =
        some (formatUnreachablePeriods pmEx.unreachableTimes) :=
  ⟨(renderings_amended pmEx 2).1,
   (renderings_amended pmEx 2).2.2.2.2.2.1 (by decide),
   ((renderings_amended pmEx 2).2.2.2.2.2.2.2.2 [tEx] 0 (by decide)).1⟩

/-! ## `pingHost` fallback behaviour -/

lemma matchTimeAt_nonneg (s : List Char) (v : ℚ) (h : matchTimeAt s = some v) : 0 ≤ v := by
  simp only [matchTimeAt] at h
  split at h
  · split at h
    · exact absurd h (by simp)
    · split at h
      · obtain rfl := (Option.some_inj.mp h).symm
        positivity
      · exact absurd h (by simp)
  · exact absurd h (by simp)

lemma findTimeMatch_nonneg (s : List Char) (v : ℚ) (h : findTimeMatch s = some v) :
    0 ≤ v := by
  induction s with
  | nil => simp [findTimeMatch] at h
  | cons c tl ih =>
      simp only [findTimeMatch] at h
      cases hm : matchTimeAt (c :: tl) with
      | some w =>
          rw [hm] at h
          obtain rfl := Option.some_inj.mp h
          exact matchTimeAt_nonneg _ _ hm
      | none =>
          rw [hm] at h
          exact ih h

/-- Claim C10: when the ping command succeeds but no latency can be
parsed from its output, `pingHost` does not fail — it returns the
measured wall-clock duration of the command (nanoseconds divided by
10^6) — and every successful probe yields a non-negative latency. -/
theorem pingHost_fallback (out : List Char) (durationNs : ℕ) :
    (findTimeMatch out = none →
       pingHost (some out) durationNs = .ok ((durationNs : ℚ) / 1000000))
    ∧ (∀ v, pingHost (some out) durationNs = .ok v → 0 ≤ v) := by
  constructor
  · intro h
    simp [pingHost, h]
  · intro v h
    simp only [pingHost] at h
    cases hm : findTimeMatch out with
    | some w =>
        rw [hm] at h
        obtain rfl := Except.ok.inj h
        exact findTimeMatch_nonneg _ _ hm
    | none =>
        rw [hm] at h
        obtain rfl := Except.ok.inj h
        positivity

/-- Witness for C10: on output with no parsable latency and a measured
duration of 3 ms (3000000 ns), the probe succeeds with latency 3. -/
theorem pingHost_fallback_witness :
    findTimeMatch ("64 bytes received".toList) = none
    ∧ pingHost (some ("64 bytes received".toList)) 3000000 =
        .ok ((3000000 : ℚ) / 1000000) :=
  ⟨by decide, (pingHost_fallback ("64 bytes received".toList) 3000000).1 (by decide)⟩

end PingCheck
